import Mathlib

/-!
Verification of the user CRUD service in `src/main.py`.

The service keeps a single in-memory list `users_db` of user records and
exposes five endpoints: `GET /health`, `GET /debug/users`, `POST /users`,
`GET /users` and `GET /users/{id}`.  The global mutable list is embedded by
threading the store explicitly: every handler is a function
`List User → Response × List User`, returning the response together with the
store as it stands after the call (read handlers return it untouched, which
is exactly what the Python functions do — they never rebind or mutate
`users_db`; `create_user` may append).

Pydantic validation of the request body (`UserCreate`, lines 16-31 of
`main.py`) runs before the handler, so the `POST /users` endpoint is the
composition `postUsers` of `validatePayload` and the handler `create_user`.
Absent JSON fields are modelled with `Option`.

Python list slicing `users_db[skip:skip+limit]` is embedded faithfully by
`pySlice`, including the clamping of negative and out-of-range indices.
-/

/-- A stored user record: dictionaries `{"id": ..., "name": ..., "email": ...}`
appended to `users_db` (line 84 of `main.py`) always have exactly these three
fields. -/
structure User where
  id : Int
  name : String
  email : String
deriving DecidableEq, Repr

/-- The raw JSON body of a `POST /users` request.  Each field is optional so
that an absent field can be distinguished from a present one; pydantic
rejects absent fields since all three are required on `UserCreate`. -/
structure RawPayload where
  id : Option Int
  name : Option String
  email : Option String
deriving DecidableEq, Repr

/-- The observable HTTP outcomes of the five endpoints. -/
inductive Response where
  /-- Pydantic validation failure: FastAPI answers 422 before the handler. -/
  | validationError (status : Nat)
  /-- An ad-hoc `JSONResponse` carrying `{"error": ...}` (line 79-82). -/
  | errorJSON (status : Nat) (error : String)
  /-- A single record serialized through `UserResponse`. -/
  | record (u : User)
  /-- A list of records serialized through `List[UserResponse]`. -/
  | records (l : List User)
  /-- An `HTTPException` carrying `{"detail": ...}`. -/
  | httpError (status : Nat) (detail : String)
  /-- The `{"status": ...}` body of `GET /health`. -/
  | health (status : String)
  /-- The `{"users_count": ..., "users": ...}` body of `GET /debug/users`. -/
  | debug (users_count : Nat) (users : List User)
deriving DecidableEq, Repr

/-- Python's whitespace test for one character (CPython `Py_UNICODE_ISSPACE`):
the Unicode separator and whitespace characters U+0009–U+000D, U+001C–U+001F,
U+0020, U+0085, U+00A0, U+1680, U+2000–U+200A, U+2028, U+2029, U+202F,
U+205F and U+3000.  This is the class `str.strip()` removes, wider than
Lean's `Char.isWhitespace`. -/
def pyIsSpace (c : Char) : Bool :=
  (0x09 ≤ c.toNat && c.toNat ≤ 0x0D) || (0x1C ≤ c.toNat && c.toNat ≤ 0x1F)
    || c.toNat == 0x20 || c.toNat == 0x85 || c.toNat == 0xA0
    || c.toNat == 0x1680 || (0x2000 ≤ c.toNat && c.toNat ≤ 0x200A)
    || c.toNat == 0x2028 || c.toNat == 0x2029 || c.toNat == 0x202F
    || c.toNat == 0x205F || c.toNat == 0x3000

/-- Python `str.strip()`: removes leading and trailing whitespace, in the
Python sense of `pyIsSpace`.  Defined over the character list so the kernel
can evaluate it. -/
def pyStrip (s : String) : String :=
  ⟨((s.data.dropWhile pyIsSpace).reverse.dropWhile pyIsSpace).reverse⟩

/-- Python `c in s` membership test on a string, over the character list. -/
def pyContains (s : String) (c : Char) : Bool :=
  s.data.contains c

/-- Pydantic validation of `UserCreate` (lines 16-31): all three fields are
required; `name_required` raises when `not v or not v.strip()`;
`email_must_contain_at` raises when `'@' not in v`.  Both validators return
the value unchanged, so the resulting record stores the fields exactly as
submitted. -/
def validatePayload (p : RawPayload) : Option User :=
  match p.id, p.name, p.email with
  | some i, some n, some e =>
    if n == "" || pyStrip n == "" then none
    else if !(pyContains e '@') then none
    else some { id := i, name := n, email := e }
  | _, _, _ => none

/-- The linear scan `for existing_user in users_db: if existing_user["email"]
== user.email` of lines 77-78: first record with the given email. -/
def findByEmail (email : String) : List User → Option User
  | [] => none
  | u :: rest => if u.email == email then some u else findByEmail email rest

/-- The linear scan `for user in users_db: if user["id"] == user_id` of lines
106-107: first record with the given id. -/
def findById (user_id : Int) : List User → Option User
  | [] => none
  | u :: rest => if u.id == user_id then some u else findById user_id rest

/-- Normalization of one Python slice endpoint for a sequence of length `n`:
negative indices count from the end and are clamped at 0, positive ones are
clamped at `n`. -/
def pyIndex (n : Nat) (i : Int) : Nat :=
  if i < 0 then (i + n).toNat else min i.toNat n

/-- Python list slicing `l[i:j]`: the elements at positions
`pyIndex n i ≤ k < pyIndex n j`.  Never fails, clamps out-of-range input. -/
def pySlice {α : Type} (l : List α) (i j : Int) : List α :=
  (l.take (pyIndex l.length j)).drop (pyIndex l.length i)

/-- `GET /health` (lines 63-65): returns `{"status": "OK"}`, reads nothing. -/
def health_check (db : List User) : Response × List User :=
  (.health "OK", db)

/-- `GET /debug/users` (lines 68-70): returns
`{"users_count": len(users_db), "users": users_db}`. -/
def debug_users (db : List User) : Response × List User :=
  (.debug db.length db, db)

/-- The `create_user` handler (lines 74-91), reached only with a validated
`UserCreate`.  Scans for an existing record with the same email; on a hit it
returns the ad-hoc 400 `{"error": "User already exists"}` response leaving
the store alone, otherwise it builds `new_user` from the payload fields,
appends it and echoes it back. -/
def create_user (user : User) (db : List User) : Response × List User :=
  match findByEmail user.email db with
  | some _ => (.errorJSON 400 "User already exists", db)
  | none =>
    let new_user : User := { id := user.id, name := user.name, email := user.email }
    (.record new_user, db ++ [new_user])

/-- The full `POST /users` endpoint: pydantic validation first (422 on
failure, handler never runs), then `create_user`. -/
def postUsers (p : RawPayload) (db : List User) : Response × List User :=
  match validatePayload p with
  | some user => create_user user db
  | none => (.validationError 422, db)

/-- `GET /users` (lines 94-100): `users_db[skip:skip+limit]` serialized as a
list of records. -/
def read_users (skip limit : Int) (db : List User) : Response × List User :=
  (.records (pySlice db skip (skip + limit)), db)

/-- `GET /users/{user_id}` (lines 103-114): first record whose id matches,
else `HTTPException(404, "User not found")`. -/
def read_user (user_id : Int) (db : List User) : Response × List User :=
  match findById user_id db with
  | some u => (.record u, db)
  | none => (.httpError 404 "User not found", db)

/-- One inbound request, for reasoning about sequences of operations. -/
inductive Op where
  | create (p : RawPayload)
  | list (skip limit : Int)
  | get (user_id : Int)
  | health
  | debug
deriving Repr

/-- Dispatch one request against the store. -/
def step (db : List User) : Op → Response × List User
  | .create p => postUsers p db
  | .list skip limit => read_users skip limit db
  | .get uid => read_user uid db
  | .health => health_check db
  | .debug => debug_users db

/-- Run a sequence of requests, threading the store. -/
def run (db : List User) : List Op → List User
  | [] => db
  | op :: ops => run (step db op).2 ops

/-- No two records of the store share an email (exact, case-sensitive). -/
def emailsNodup (db : List User) : Prop :=
  (db.map User.email).Nodup

/-- A record is shaped the way validation guarantees: name non-empty after
stripping, email containing an `@`. -/
def validRecord (u : User) : Prop :=
  pyStrip u.name ≠ "" ∧ pyContains u.email '@' = true

/-- The store invariant maintained by every request: pairwise-distinct emails
and validated field contents. -/
def storeInv (db : List User) : Prop :=
  emailsNodup db ∧ ∀ u ∈ db, validRecord u

lemma findByEmail_eq_none_iff (e : String) (db : List User) :
    findByEmail e db = none ↔ ∀ u ∈ db, u.email ≠ e := by
  induction db with
  | nil => simp [findByEmail]
  | cons a rest ih =>
    by_cases h : a.email = e
    · simp [findByEmail, h]
    · simp [findByEmail, h, ih]

lemma findByEmail_isSome_of_mem (e : String) (db : List User) (x : User)
    (hx : x ∈ db) (he : x.email = e) : ∃ u, findByEmail e db = some u := by
  cases hfind : findByEmail e db with
  | some u => exact ⟨u, rfl⟩
  | none => exact absurd he ((findByEmail_eq_none_iff e db).mp hfind x hx)

lemma findById_eq_none_iff (uid : Int) (db : List User) :
    findById uid db = none ↔ ∀ u ∈ db, u.id ≠ uid := by
  induction db with
  | nil => simp [findById]
  | cons a rest ih =>
    by_cases h : a.id = uid
    · simp [findById, h]
    · simp [findById, h, ih]

lemma findById_first (uid : Int) (l₁ l₂ : List User) (u : User)
    (hu : u.id = uid) (hl : ∀ v ∈ l₁, v.id ≠ uid) :
    findById uid (l₁ ++ u :: l₂) = some u := by
  induction l₁ with
  | nil => simp [findById, hu]
  | cons a rest ih =>
    have ha : a.id ≠ uid := hl a (by simp)
    simp only [List.cons_append, findById]
    rw [if_neg (by simpa using ha)]
    exact ih fun v hv => hl v (by simp [hv])

lemma take_min_drop_min {α : Type} (l : List α) (a b : Nat) :
    (l.take (min b l.length)).drop (min a l.length) = (l.drop a).take (b - a) := by
  rcases le_or_lt a l.length with ha | ha
  · rw [min_eq_left ha]
    rcases le_or_lt b l.length with hb | hb
    · rw [min_eq_left hb, List.drop_take b a l]
    · rw [min_eq_right (Nat.le_of_lt hb), List.take_length,
        List.take_of_length_le (by rw [List.length_drop]; omega)]
  · rw [min_eq_right (Nat.le_of_lt ha),
      List.drop_eq_nil_of_le (by rw [List.length_take]; omega),
      List.drop_eq_nil_of_le (by omega), List.take_nil]

lemma pySlice_nonneg {α : Type} (l : List α) (i j : Int) (hi : 0 ≤ i)
    (hij : i ≤ j) : pySlice l i j = (l.drop i.toNat).take (j.toNat - i.toNat) := by
  have hi' : ¬ i < 0 := by omega
  have hj' : ¬ j < 0 := by omega
  rw [pySlice, pyIndex, pyIndex, if_neg hi', if_neg hj', take_min_drop_min]

lemma pySlice_sublist {α : Type} (l : List α) (i j : Int) :
    List.Sublist (pySlice l i j) l :=
  (List.drop_sublist _ _).trans (List.take_sublist _ _)

lemma validatePayload_some_fields (p : RawPayload) (u : User)
    (h : validatePayload p = some u) :
    p.id = some u.id ∧ p.name = some u.name ∧ p.email = some u.email
      ∧ validRecord u := by
  obtain ⟨i?, n?, e?⟩ := p
  cases i? with
  | none => simp [validatePayload] at h
  | some i =>
  cases n? with
  | none => simp [validatePayload] at h
  | some n =>
  cases e? with
  | none => simp [validatePayload] at h
  | some e =>
  simp only [validatePayload] at h
  by_cases h1 : (n == "" || pyStrip n == "") = true
  · rw [if_pos h1] at h
    exact absurd h (by simp)
  · rw [if_neg h1] at h
    by_cases h2 : (!pyContains e '@') = true
    · rw [if_pos h2] at h
      exact absurd h (by simp)
    · rw [if_neg h2] at h
      obtain rfl : User.mk i n e = u := by simpa using h
      have hn : ¬ n = "" ∧ ¬ pyStrip n = "" := by simpa using h1
      have he : pyContains e '@' = true := by simpa using h2
      exact ⟨rfl, rfl, rfl, hn.2, he⟩

lemma storeInv_step (db : List User) (op : Op) (h : storeInv db) :
    storeInv (step db op).2 := by
  cases op with
  | list skip limit => exact h
  | health => exact h
  | debug => exact h
  | get uid =>
    have h2 : (read_user uid db).2 = db := by
      cases hf : findById uid db <;> simp [read_user, hf]
    simpa [step, h2] using h
  | create p =>
    show storeInv (postUsers p db).2
    cases hv : validatePayload p with
    | none => simpa [postUsers, hv] using h
    | some user =>
      have hval : validRecord user := (validatePayload_some_fields p user hv).2.2.2
      cases hf : findByEmail user.email db with
      | some w => simpa [postUsers, hv, create_user, hf] using h
      | none =>
        have hfresh : ∀ x ∈ db, x.email ≠ user.email :=
          (findByEmail_eq_none_iff _ _).mp hf
        have h2 : (postUsers p db).2 = db ++ [user] := by
          simp [postUsers, hv, create_user, hf]
        rw [h2]
        constructor
        · simpa [emailsNodup, List.nodup_append] using ⟨h.1, hfresh⟩
        · intro u hu
          rcases List.mem_append.mp hu with hu | hu
          · exact h.2 u hu
          · rw [List.mem_singleton.mp hu]
            exact hval

lemma storeInv_run (db : List User) (ops : List Op) (h : storeInv db) :
    storeInv (run db ops) := by
  induction ops generalizing db with
  | nil => exact h
  | cons op ops ih => exact ih _ (storeInv_step db op h)

lemma storeInv_nil : storeInv [] :=
  ⟨by simp [emailsNodup], by simp⟩

/-- Claim C1: a creation request that passes validation and whose email does
not match any stored record (exact, case-sensitive) appends the new record at
the end of the store, growing it by exactly one, and echoes back a record
equal to the input payload. -/
theorem create_unique_appends (i : Int) (n e : String) (db : List User) (u : User)
    (hv : validatePayload ⟨some i, some n, some e⟩ = some u)
    (hfresh : ∀ x ∈ db, x.email ≠ e) :
    postUsers ⟨some i, some n, some e⟩ db = (.record u, db ++ [u])
      ∧ u = ⟨i, n, e⟩
      ∧ (db ++ [u]).length = db.length + 1 := by
  obtain ⟨hid, hname, hemail, -⟩ := validatePayload_some_fields _ u hv
  have hu : u = ⟨i, n, e⟩ := by
    obtain ⟨ui, un, ue⟩ := u
    have h1 : i = ui := by simpa using hid
    have h2 : n = un := by simpa using hname
    have h3 : e = ue := by simpa using hemail
    simp [h1, h2, h3]
  subst hu
  have hf : findByEmail (User.mk i n e).email db = none :=
    (findByEmail_eq_none_iff _ _).mpr (by simpa using hfresh)
  refine ⟨?_, rfl, by simp⟩
  simp [postUsers, hv, create_user, hf]

theorem create_unique_appends_witness :
    postUsers ⟨some 1, some "Ann", some "a@x.com"⟩ []
        = (.record ⟨1, "Ann", "a@x.com"⟩, [] ++ [⟨1, "Ann", "a@x.com"⟩])
      ∧ User.mk 1 "Ann" "a@x.com" = ⟨1, "Ann", "a@x.com"⟩
      ∧ (([] : List User) ++ ([⟨1, "Ann", "a@x.com"⟩] : List User)).length
          = ([] : List User).length + 1 :=
  create_unique_appends 1 "Ann" "a@x.com" [] ⟨1, "Ann", "a@x.com"⟩
    (by decide) (by simp)

/-- Claim C2, counterexample to the claim as stated: with
`[{1, "Ann", "a@x.com"}]` stored, the request `{2, "", "a@x.com"}` has the
email of an existing record, yet the endpoint answers 422 (pydantic rejects
the empty name before the handler runs), not the 400 duplicate response the
claim requires for every such request. -/
theorem create_dup_email_cex :
    (User.mk 1 "Ann" "a@x.com").email = "a@x.com"
      ∧ postUsers ⟨some 2, some "", some "a@x.com"⟩ [⟨1, "Ann", "a@x.com"⟩]
          = (.validationError 422, [⟨1, "Ann", "a@x.com"⟩])
      ∧ Response.validationError 422 ≠ Response.errorJSON 400 "User already exists" :=
  ⟨rfl, by decide, by decide⟩

/-- Claim C2, amended: a creation request that passes validation and whose
email equals the email of a stored record (exact, case-sensitive) is answered
with status 400 and body `{"error": "User already exists"}`, and the store is
returned unchanged. -/
theorem create_dup_email_rejected (p : RawPayload) (u x : User) (db : List User)
    (hv : validatePayload p = some u) (hx : x ∈ db) (he : x.email = u.email) :
    postUsers p db = (.errorJSON 400 "User already exists", db) := by
  obtain ⟨w, hw⟩ := findByEmail_isSome_of_mem u.email db x hx he
  simp [postUsers, hv, create_user, hw]

theorem create_dup_email_rejected_witness :
    postUsers ⟨some 2, some "Bob", some "a@x.com"⟩ [⟨1, "Ann", "a@x.com"⟩]
      = (.errorJSON 400 "User already exists", [⟨1, "Ann", "a@x.com"⟩]) :=
  create_dup_email_rejected _ ⟨2, "Bob", "a@x.com"⟩ ⟨1, "Ann", "a@x.com"⟩ _
    (by decide) (by decide) rfl

/-- Claim C3: starting from the empty store, any sequence of create, list,
get-by-id, health and debug requests leaves the store with pairwise-distinct
emails (exact, case-sensitive). -/
theorem emails_unique_reachable (ops : List Op) : emailsNodup (run [] ops) :=
  (storeInv_run [] ops storeInv_nil).1

/-- Claim C4: a creation request whose name is absent, empty or
whitespace-only, or whose email lacks the character `@`, is rejected with the
422 validation response and the store is returned unchanged (the handler, and
hence any store interaction, is never reached). -/
theorem create_invalid_rejected (p : RawPayload) (db : List User)
    (h : p.name = none ∨ (∃ n, p.name = some n ∧ pyStrip n = "")
        ∨ (∃ e, p.email = some e ∧ pyContains e '@' = false)) :
    postUsers p db = (.validationError 422, db) := by
  have hv : validatePayload p = none := by
    obtain ⟨i?, n?, e?⟩ := p
    rcases h with h | ⟨n, hn, hn'⟩ | ⟨e, he, he'⟩
    · have : n? = none := h
      subst this
      cases i? <;> cases e? <;> rfl
    · have : n? = some n := hn
      subst this
      cases i? with
      | none => rfl
      | some i =>
        cases e? with
        | none => rfl
        | some e =>
          simp [validatePayload, hn']
    · have : e? = some e := he
      subst this
      cases i? with
      | none => rfl
      | some i =>
        cases n? with
        | none => rfl
        | some n =>
          simp only [validatePayload]
          by_cases h1 : (n == "" || pyStrip n == "") = true
          · rw [if_pos h1]
          · rw [if_neg h1, if_pos (by simp [he'])]
  simp [postUsers, hv]

theorem create_invalid_rejected_witness :
    postUsers ⟨some 1, some " ", some "a@x.com"⟩ []
      = (.validationError 422, ([] : List User)) :=
  create_invalid_rejected _ [] (Or.inr (Or.inl ⟨" ", rfl, by decide⟩))

/-- Claim C5: `GET /users/{id}` returns the first record in insertion order
whose id matches (a later record with the same id is never the result), and
answers 404 with detail `"User not found"` when no record matches; the store
is returned unchanged either way. -/
theorem read_user_first_match (uid : Int) :
    (∀ (l₁ l₂ : List User) (u : User), u.id = uid → (∀ v ∈ l₁, v.id ≠ uid) →
      read_user uid (l₁ ++ u :: l₂) = (.record u, l₁ ++ u :: l₂))
      ∧ ∀ db : List User, (∀ v ∈ db, v.id ≠ uid) →
        read_user uid db = (.httpError 404 "User not found", db) := by
  constructor
  · intro l₁ l₂ u hu hl
    simp [read_user, findById_first uid l₁ l₂ u hu hl]
  · intro db hdb
    simp [read_user, (findById_eq_none_iff uid db).mpr hdb]

theorem read_user_first_match_witness :
    read_user 1 [⟨2, "B", "b@x.com"⟩, ⟨1, "A", "a@x.com"⟩, ⟨1, "C", "c@x.com"⟩]
        = (.record ⟨1, "A", "a@x.com"⟩,
            [⟨2, "B", "b@x.com"⟩, ⟨1, "A", "a@x.com"⟩, ⟨1, "C", "c@x.com"⟩])
      ∧ read_user 5 [⟨2, "B", "b@x.com"⟩]
        = (.httpError 404 "User not found", [⟨2, "B", "b@x.com"⟩]) :=
  ⟨(read_user_first_match 1).1 [⟨2, "B", "b@x.com"⟩] [⟨1, "C", "c@x.com"⟩]
      ⟨1, "A", "a@x.com"⟩ rfl (by decide),
    (read_user_first_match 5).2 _ (by decide)⟩

/-- Claim C6: `GET /users` returns the slice of the store starting at offset
`skip` with at most `limit` records, in insertion order; a `skip` at or past
the end yields the empty list; for arbitrary (possibly negative) `skip` and
`limit` the result is always a well-formed sublist of the store, per Python
slicing; and after three records A, B, C, `skip=1&limit=1` returns `[B]`. -/
theorem read_users_slices :
    (∀ (db : List User) (skip limit : Int), 0 ≤ skip → 0 ≤ limit →
      (read_users skip limit db).1
        = .records ((db.drop skip.toNat).take limit.toNat))
      ∧ (∀ (db : List User) (skip limit : Int), (db.length : Int) ≤ skip →
        (read_users skip limit db).1 = .records [])
      ∧ (∀ (db : List User) (skip limit : Int),
        List.Sublist (pySlice db skip (skip + limit)) db
          ∧ (read_users skip limit db).1 = .records (pySlice db skip (skip + limit)))
      ∧ ∀ A B C : User, (read_users 1 1 [A, B, C]).1 = .records [B] := by
  refine ⟨?_, ?_, ?_, ?_⟩
  · intro db skip limit hs hl
    have harith : (skip + limit).toNat - skip.toNat = limit.toNat := by omega
    simp only [read_users]
    rw [pySlice_nonneg db skip (skip + limit) hs (by omega), harith]
  · intro db skip limit hs
    have hempty : pySlice db skip (skip + limit) = [] := by
      simp only [pySlice]
      apply List.drop_eq_nil_of_le
      rw [List.length_take]
      simp only [pyIndex]
      split_ifs <;> omega
    simp only [read_users, hempty]
  · intro db skip limit
    exact ⟨pySlice_sublist db skip (skip + limit), rfl⟩
  · intro A B C
    rfl

theorem read_users_slices_witness :
    (read_users 1 2 [⟨1, "A", "a@x.com"⟩, ⟨2, "B", "b@x.com"⟩,
          ⟨3, "C", "c@x.com"⟩, ⟨4, "D", "d@x.com"⟩]).1
        = .records (([⟨1, "A", "a@x.com"⟩, ⟨2, "B", "b@x.com"⟩,
            ⟨3, "C", "c@x.com"⟩, ⟨4, "D", "d@x.com"⟩].drop
              (1 : Int).toNat).take (2 : Int).toNat)
      ∧ (read_users 7 3 [⟨1, "A", "a@x.com"⟩]).1 = .records [] :=
  ⟨read_users_slices.1 _ 1 2 (by decide) (by decide),
    read_users_slices.2.1 [⟨1, "A", "a@x.com"⟩] 7 3 (by decide)⟩

/-- Claim C7: `GET /health` always answers the fixed payload
`{"status": "OK"}`, regardless of the store, with no failure path, and leaves
the store unchanged. -/
theorem health_check_ok (db : List User) : health_check db = (.health "OK", db) :=
  rfl

/-- Claim C8: `GET /debug/users` answers an object whose `users` field is the
full store in insertion order and whose `users_count` field is the length of
that list, leaving the store unchanged. -/
theorem debug_users_dump (db : List User) :
    debug_users db = (.debug db.length db, db) :=
  rfl

/-- Claim C9: the four read endpoints never change the store, for every store
state and all parameters (found or not); only `POST /users` can mutate it. -/
theorem read_ops_preserve_store (db : List User) (skip limit user_id : Int) :
    (health_check db).2 = db ∧ (debug_users db).2 = db
      ∧ (read_users skip limit db).2 = db ∧ (read_user user_id db).2 = db := by
  refine ⟨rfl, rfl, rfl, ?_⟩
  cases h : findById user_id db <;> simp [read_user, h]

/-- Claim C10: every record of a store reachable from empty has a name that is
non-empty after stripping whitespace and an email containing `@`; and a
validated record keeps the submitted field values verbatim (the name keeps
its surrounding whitespace: stripping is only used for the emptiness test). -/
theorem records_valid_reachable :
    (∀ ops : List Op, ∀ u ∈ run [] ops,
        pyStrip u.name ≠ "" ∧ pyContains u.email '@' = true)
      ∧ ∀ (i : Int) (n e : String) (u : User),
        validatePayload ⟨some i, some n, some e⟩ = some u → u = ⟨i, n, e⟩ := by
  constructor
  · intro ops u hu
    exact (storeInv_run [] ops storeInv_nil).2 u hu
  · intro i n e u hv
    obtain ⟨hid, hname, hemail, -⟩ := validatePayload_some_fields _ u hv
    obtain ⟨ui, un, ue⟩ := u
    have h1 : i = ui := by simpa using hid
    have h2 : n = un := by simpa using hname
    have h3 : e = ue := by simpa using hemail
    simp [h1, h2, h3]

theorem records_valid_reachable_witness :
    (pyStrip (User.mk 1 " Ann " "a@x.com").name ≠ ""
        ∧ pyContains (User.mk 1 " Ann " "a@x.com").email '@' = true)
      ∧ User.mk 1 " Ann " "a@x.com" = ⟨1, " Ann ", "a@x.com"⟩ :=
  ⟨records_valid_reachable.1 [Op.create ⟨some 1, some " Ann ", some "a@x.com"⟩]
      ⟨1, " Ann ", "a@x.com"⟩ (by decide),
    records_valid_reachable.2 1 " Ann " "a@x.com" _ (by decide)⟩
